import Mathlib

/-!
A shallow embedding in Lean 4 of the Tetra3D Blender add-on (`tetra3d.py`),
covering the ordered game-property list model (add / delete / reorder /
copy-between-objects) and the export coordinator (path resolution,
transient annotation stamping, delegate invocation, cleanup), together
with theorems about the behaviours the design documentation describes.

Blender host primitives that the add-on calls (collection lookup by name,
collection `move`, the glTF exporter operator) are modelled as explicit
Lean definitions; Python floats are modelled as exact rationals `ℚ`.
-/

/-- One game property, mirroring the fields of `t3dGamePropertyItem__`:
`name`, `valueType` (one of the identifiers of `gamePropTypes`), and the
payload fields `valueBool`, `valueInt`, `valueFloat`, `valueString`,
`valueReference`, `valueReferenceScene`.  Object / scene pointers are
modelled by optional names. -/
structure GameProp where
  name : String
  valueType : String
  valueBool : Bool
  valueInt : Int
  valueFloat : ℚ
  valueString : String
  valueReference : Option String
  valueReferenceScene : Option String
deriving DecidableEq, Repr

/-- The element produced by `t3dGameProperties__.add()`: all fields at the
defaults declared on `t3dGamePropertyItem__` (`name="New Property"`, the
first enum item `"bool"`, and zero / empty / `None` payloads). -/
def defaultGameProp : GameProp :=
  { name := "New Property", valueType := "bool", valueBool := false,
    valueInt := 0, valueFloat := 0, valueString := "",
    valueReference := none, valueReferenceScene := none }

/-- Embeds `copyProp(fromProp, toProp)` from `tetra3d.py`: assigns every field of
`fromProp` onto `toProp`, returning the updated target. -/
def copyProp (fromProp toProp : GameProp) : GameProp :=
  { toProp with
    name := fromProp.name,
    valueType := fromProp.valueType,
    valueBool := fromProp.valueBool,
    valueInt := fromProp.valueInt,
    valueFloat := fromProp.valueFloat,
    valueString := fromProp.valueString,
    valueReference := fromProp.valueReference,
    valueReferenceScene := fromProp.valueReferenceScene }

/-- Host collection primitive: `name in collection` membership test for a
`bpy_prop_collection`, which is keyed by the `name` field. -/
def collectionHasName (l : List GameProp) (nm : String) : Bool :=
  l.any (fun p => p.name = nm)

/-- Host collection primitive: `collection[name] = value` semantics used
through `toProp = coll[name]; copyProp(fromProp, toProp)` — the first
element whose `name` is `nm` is updated in place by `f`. -/
def collectionAssignByName (l : List GameProp) (nm : String) (f : GameProp → GameProp) :
    List GameProp :=
  match l with
  | [] => []
  | p :: rest =>
      if p.name = nm then f p :: rest
      else p :: collectionAssignByName rest nm f

/-- The body of `OBJECT_OT_tetra3dCopyOneProperty.execute` for a single
target list: if the target already has an entry named `fromProp.name`,
that entry is overwritten via `copyProp`; otherwise a fresh element is
added (`add()`) and overwritten via `copyProp`. -/
def copyOneUpsert (fromProp : GameProp) (target : List GameProp) : List GameProp :=
  if collectionHasName target fromProp.name then
    collectionAssignByName target fromProp.name (copyProp fromProp)
  else
    target ++ [copyProp fromProp defaultGameProp]

/-- List-level `CopyOne(A, B, i)`: fetch `A[i]` (`none` models the
`IndexError` Python raises when `i` is out of range) and upsert it into
`B` exactly as `OBJECT_OT_tetra3dCopyOneProperty.execute` does. -/
def copyOneList (A B : List GameProp) (i : Nat) : Option (List GameProp) :=
  (A[i]?).map (fun fromProp => copyOneUpsert fromProp B)

/-- The body of `OBJECT_OT_tetra3dCopyProps.execute` for a single target
list: `clear()` the target, then for each source entry `add()` a fresh
element and `copyProp` the source entry onto it, in order. -/
def copyAllList (source target : List GameProp) : List GameProp :=
  source.foldl (fun acc prop => acc ++ [copyProp prop defaultGameProp]) []

/-- Host list primitive behind `collection.move(fromIdx, toIdx)`: remove
the element at `f` and reinsert it at `t`; if `f` is out of range the
list is unchanged. -/
def listRelocate {α : Type} (l : List α) (f t : Nat) : List α :=
  match l[f]? with
  | none => l
  | some x => (l.eraseIdx f).insertIdx t x

/-- Modelled from the spec: the host `bpy_prop_collection.move` primitive
(its implementation is not part of this repository).  Per the design
documentation the boundary policy is to clamp silently: both indices are
clamped into `[0, length-1]` and the element is then relocated, so a move
whose target index falls outside the list is a no-op. -/
def collectionMove {α : Type} (l : List α) (fromIdx toIdx : Int) : List α :=
  let hi : Int := (l.length : Int) - 1
  let f : Nat := (max 0 (min fromIdx hi)).toNat
  let t : Nat := (max 0 (min toIdx hi)).toNat
  listRelocate l f t

/-- Embeds `OBJECT_OT_tetra3dReorderProps.execute`: `move(index, index-1)` when
`moveUp` is set, `move(index, index+1)` otherwise. -/
def reorderExec {α : Type} (l : List α) (index : Nat) (moveUp : Bool) : List α :=
  if moveUp then collectionMove l (index : Int) ((index : Int) - 1)
  else collectionMove l (index : Int) ((index : Int) + 1)

/-- Adjacent swap of positions `j` and `j+1`, the specification-side
description of what an in-bounds one-step move performs. -/
def swapAdj {α : Type} : List α → Nat → List α
  | x :: y :: rest, 0 => y :: x :: rest
  | x :: rest, n + 1 => x :: swapAdj rest n
  | l, _ => l

/-- Index of the last occurrence of `c` in `l` (`-1` when absent),
modelling Python `str.rfind`. -/
def lastIdxOf (l : List Char) (c : Char) : Int :=
  (List.range l.length).foldl
    (fun acc i => if l.get? i = some c then (i : Int) else acc) (-1)

/-- Whether some character of `l` with index in `[start, stop)` differs
from `'.'` — the "skip all leading dots" scan of CPython
`genericpath._splitext`. -/
def hasNonDotBetween (l : List Char) (start stop : Nat) : Bool :=
  ((l.drop start).take (stop - start)).any (fun ch => ch ≠ '.')

/-- Embeds `os.path.splitext` for POSIX paths (separator `'/'`, extension
separator `'.'`, no alternate separator), following CPython
`genericpath._splitext`: split at the last dot that lies after the last
separator, unless every character between them is a dot (a leading-dot
file such as `".bashrc"` has no extension). -/
def splitext (p : String) : String × String :=
  let l := p.toList
  let sepIndex := lastIdxOf l '/'
  let dotIndex := lastIdxOf l '.'
  if dotIndex > sepIndex ∧ hasNonDotBetween l (sepIndex + 1).toNat dotIndex.toNat then
    (String.mk (l.take dotIndex.toNat), String.mk (l.drop dotIndex.toNat))
  else (p, "")

/-- The three identifiers of the `t3dExportFormat__` enum property
(`gltfExportTypes`). -/
inductive GltfFormat where
  | GLB
  | GLTF_SEPARATE
  | GLTF_EMBEDDED
deriving DecidableEq, Repr

/-- The extension chosen by `export()`: `.glb` for `"GLB"`, `.gltf` for
`"GLTF_SEPARATE"` or `"GLTF_EMBEDDED"`. -/
def gltfEnding : GltfFormat → String
  | .GLB => ".glb"
  | .GLTF_SEPARATE => ".gltf"
  | .GLTF_EMBEDDED => ".gltf"

/-- A pose marker of an animation action: `marker.name` and the integer
`marker.frame`. -/
structure PoseMarker where
  name : String
  frame : Int
deriving DecidableEq, Repr

/-- One `{"name": ..., "time": ...}` dictionary built by `export()` for a
pose marker; `time` is a Python float, modelled as an exact rational. -/
structure MarkerInfo where
  name : String
  time : ℚ
deriving DecidableEq, Repr

/-- An animation action (`bpy.data.actions` element): its pose markers
and the transient custom property `"t3dMarkers__"` (`none` when the key
is absent). -/
structure BAction where
  name : String
  pose_markers : List PoseMarker
  t3dMarkers : Option (List MarkerInfo)
deriving DecidableEq, Repr

/-- An object inside an instanced collection: its `name` and its `parent`
(modelled by the parent's name, `none` for parentless objects). -/
structure CollObject where
  name : String
  parent : Option String
deriving DecidableEq, Repr

/-- A scene object (`bpy.data.objects` element): its `instance_type`
string, the objects of its `instance_collection` (empty when it instances
no collection), and the transient custom property
`"t3dInstanceCollection__"` (`none` when the key is absent). -/
structure BObject where
  name : String
  instance_type : String
  instance_collection : List CollObject
  t3dInstanceCollection : Option (List String)
deriving DecidableEq, Repr

/-- The state `export()` reads: the blend file path
(`bpy.context.blend_data.filepath`), the scene export settings, the scene
frame rate `scene.render.fps`, and the document's objects and actions. -/
structure Ctx where
  blendFilepath : String
  t3dExportFilepath : String
  t3dExportFormat : GltfFormat
  t3dExportCameras : Bool
  t3dExportLights : Bool
  t3dPackTextures : Bool
  fps : ℚ
  objects : List BObject
  actions : List BAction
deriving DecidableEq, Repr

/-- The keyword arguments of the single `bpy.ops.export_scene.gltf(...)`
call in `export()`. -/
structure ExporterCall where
  filepath : String
  export_format : GltfFormat
  export_cameras : Bool
  export_lights : Bool
  export_keep_originals : Bool
  export_extras : Bool
  export_yup : Bool
  export_apply : Bool
deriving DecidableEq, Repr

/-- How a run of `export()` ended: a normal `return` with a boolean, or
an uncaught exception propagating out of the delegate exporter call. -/
inductive ExportOutcome where
  | returned (ret : Bool)
  | raised
deriving DecidableEq, Repr

/-- The observable effect of one run of `export()`: how it ended, the
final document state, and the delegate exporter calls it made. -/
structure ExportResult where
  outcome : ExportOutcome
  ctx : Ctx
  calls : List ExporterCall
deriving DecidableEq, Repr

/-- The base path `export()` resolves: `bpy.context.blend_data.filepath`,
overridden by `scene.t3dExportFilepath__` when that is non-empty. -/
def resolvedBase (ctx : Ctx) : String :=
  if ctx.t3dExportFilepath ≠ "" then ctx.t3dExportFilepath else ctx.blendFilepath

/-- The object-annotation loop body of `export()`: collect the names of
the parentless objects of the instanced collection when
`instance_type == "COLLECTION"`, and stamp them as
`obj["t3dInstanceCollection__"]` only when the list is non-empty. -/
def annotateObject (obj : BObject) : BObject :=
  let cloning : List String :=
    if obj.instance_type = "COLLECTION" then
      (obj.instance_collection.filter (fun o => o.parent = none)).map (fun o => o.name)
    else []
  if cloning.length > 0 then { obj with t3dInstanceCollection := some cloning } else obj

/-- The action-annotation loop body of `export()`: build a
`{"name", "time"}` entry per pose marker with `time = marker.frame /
scene.render.fps`, and stamp `action["t3dMarkers__"]` only when at least
one marker exists. -/
def annotateAction (fps : ℚ) (action : BAction) : BAction :=
  let markers : List MarkerInfo :=
    action.pose_markers.map (fun marker => { name := marker.name, time := (marker.frame : ℚ) / fps })
  if markers.length > 0 then { action with t3dMarkers := some markers } else action

/-- The post-delegate cleanup loop of `export()` over objects:
`del obj["t3dInstanceCollection__"]` whenever the key is present. -/
def stripObjectTag (obj : BObject) : BObject :=
  { obj with t3dInstanceCollection := none }

/-- The post-delegate cleanup loop of `export()` over actions:
`del action["t3dMarkers__"]` whenever the key is present. -/
def stripActionTag (action : BAction) : BAction :=
  { action with t3dMarkers := none }

/-- Embeds `export()` from `tetra3d.py`, with the delegate
`bpy.ops.export_scene.gltf` modelled by the flag `delegateOk`: when it is
`false` the delegate call raises, and — the function body having no
`try`/`finally` — the exception propagates immediately, skipping the
cleanup loops and the final `return True`. -/
def exportFn (ctx : Ctx) (delegateOk : Bool) : ExportResult :=
  let blendPath := resolvedBase ctx
  if blendPath = "" then
    { outcome := .returned false, ctx := ctx, calls := [] }
  else
    let newPath := (splitext blendPath).1 ++ gltfEnding ctx.t3dExportFormat
    let objs1 := ctx.objects.map annotateObject
    let acts1 := ctx.actions.map (annotateAction ctx.fps)
    let call : ExporterCall :=
      { filepath := newPath,
        export_format := ctx.t3dExportFormat,
        export_cameras := ctx.t3dExportCameras,
        export_lights := ctx.t3dExportLights,
        export_keep_originals := !ctx.t3dPackTextures,
        export_extras := true,
        export_yup := true,
        export_apply := true }
    if delegateOk then
      { outcome := .returned true,
        ctx := { ctx with objects := objs1.map stripObjectTag,
                          actions := acts1.map stripActionTag },
        calls := [call] }
    else
      { outcome := .raised,
        ctx := { ctx with objects := objs1, actions := acts1 },
        calls := [call] }

/-- One item of a Blender `EnumProperty` items list, keeping the fields
the add-on's behaviour depends on: the string `identifier` (first tuple
element), the display `label` (second), and the integer `number` (fifth),
which is the value a getter callback returns to select the item.  The
display description and icon are inert and omitted. -/
structure EnumItem where
  identifier : String
  label : String
  number : Nat
deriving DecidableEq, Repr

/-- Embeds `gltfExportTypes` from `tetra3d.py` (identifiers, labels and
numbers). -/
def gltfExportTypes : List EnumItem :=
  [ { identifier := "GLB", label := ".glb", number := 0 },
    { identifier := "GLTF_SEPARATE", label := ".gltf + .bin + textures", number := 1 },
    { identifier := "GLTF_EMBEDDED", label := ".gltf", number := 2 } ]

/-- The identifier an `EnumProperty` resolves a getter's integer to: the
item whose `number` equals `n`. -/
def enumIdentifierOfNumber (items : List EnumItem) (n : Nat) : Option String :=
  (items.find? (fun it => it.number = n)).map (fun it => it.identifier)

/-- The custom-property storage of `bpy.data.scenes[0]` that `globalGet`
and `globalSet` read and write: one optional slot per persisted Tetra3D
setting, `none` meaning the key has never been written. -/
structure SceneStore where
  t3dExportOnSave : Option Bool
  t3dExportFilepath : Option String
  t3dExportFormat : Option Nat
  t3dExportCameras : Option Bool
  t3dExportLights : Option Bool
  t3dPackTextures : Option Bool
deriving DecidableEq, Repr

/-- A scene on which none of the six settings has ever been written. -/
def freshSceneStore : SceneStore :=
  { t3dExportOnSave := none, t3dExportFilepath := none, t3dExportFormat := none,
    t3dExportCameras := none, t3dExportLights := none, t3dPackTextures := none }

/-- Getter `getExportOnSave`: `globalGet("t3dExportOnSave__")`, `False` when the
key is absent. -/
def getExportOnSave (sc : SceneStore) : Bool :=
  match sc.t3dExportOnSave with
  | none => false
  | some s => s

/-- Getter `getExportFilepath`: `globalGet("t3dExportFilepath__")`, `""` when
the key is absent. -/
def getExportFilepath (sc : SceneStore) : String :=
  match sc.t3dExportFilepath with
  | none => ""
  | some fp => fp

/-- Getter `getExportFormat`: `globalGet("t3dExportFormat__")`, `0` when the key
is absent.  The returned integer is resolved against `gltfExportTypes` by
the enum property. -/
def getExportFormat (sc : SceneStore) : Nat :=
  match sc.t3dExportFormat with
  | none => 0
  | some f => f

/-- Getter `getExportCameras`: `globalGet("t3dExportCameras__")`, `True` when
the key is absent. -/
def getExportCameras (sc : SceneStore) : Bool :=
  match sc.t3dExportCameras with
  | none => true
  | some c => c

/-- Getter `getExportLights`: `globalGet("t3dExportLights__")`, `True` when the
key is absent. -/
def getExportLights (sc : SceneStore) : Bool :=
  match sc.t3dExportLights with
  | none => true
  | some l => l

/-- Getter `getPackTextures`: `globalGet("t3dPackTextures__")`, `False` when the
key is absent. -/
def getPackTextures (sc : SceneStore) : Bool :=
  match sc.t3dPackTextures with
  | none => false
  | some l => l

/-- The `default="GLTF_EMBEDDED"` argument of the
`bpy.types.Scene.t3dExportFormat__` declaration in `register()` — the
default the declaration itself documents. -/
def declaredFormatDefault : String := "GLTF_EMBEDDED"

/-- A scene object as the copy operators see it: its identity (Blender
object equality is identity of the underlying object) and its
`t3dGameProperties__` list. -/
structure BlenderObj where
  id : Nat
  props : List GameProp
deriving DecidableEq, Repr

/-- Reads `t3dGameProperties__` of the object with identity `oid` (the empty
list when no such object exists). -/
def getObjProps (objs : List BlenderObj) (oid : Nat) : List GameProp :=
  match objs.find? (fun o => o.id = oid) with
  | some o => o.props
  | none => []

/-- Replace the property list of every object with identity `oid` by
`f` of it, leaving all other objects untouched. -/
def updateObjProps (objs : List BlenderObj) (oid : Nat) (f : List GameProp → List GameProp) :
    List BlenderObj :=
  objs.map (fun o => if o.id = oid then { o with props := f o.props } else o)

/-- The loop of `OBJECT_OT_tetra3dCopyProps.execute`: for each selected
object in order, skip it when it is the active object (`o == selected`),
otherwise clear it and copy every property of the active object onto it,
threading the document state through the iterations. -/
def copyPropsGo (activeId : Nat) (sel : List Nat) (objs : List BlenderObj) :
    List BlenderObj :=
  match sel with
  | [] => objs
  | oid :: rest =>
      if oid = activeId then copyPropsGo activeId rest objs
      else copyPropsGo activeId rest
        (updateObjProps objs oid (fun props => copyAllList (getObjProps objs activeId) props))

/-- Embeds `OBJECT_OT_tetra3dCopyProps.execute`: run the copy-all loop over
`context.selected_objects` with `context.object` as the source. -/
def copyPropsRun (objs : List BlenderObj) (activeId : Nat) (sel : List Nat) :
    List BlenderObj :=
  copyPropsGo activeId sel objs

/-- The loop of `OBJECT_OT_tetra3dCopyOneProperty.execute`: for each
selected object in order, skip the active object, otherwise read
`selected.t3dGameProperties__[index]` (an out-of-range read raises,
aborting the loop with the document as mutated so far — the `false`
component) and upsert it by name into the target's list. -/
def copyOneGo (activeId index : Nat) (sel : List Nat) (objs : List BlenderObj) :
    Bool × List BlenderObj :=
  match sel with
  | [] => (true, objs)
  | oid :: rest =>
      if oid = activeId then copyOneGo activeId index rest objs
      else
        match (getObjProps objs activeId)[index]? with
        | none => (false, objs)
        | some fromProp =>
            copyOneGo activeId index rest (updateObjProps objs oid (copyOneUpsert fromProp))

/-- Embeds `OBJECT_OT_tetra3dCopyOneProperty.execute`: run the copy-one loop
over `context.selected_objects` with `context.object` as the source. -/
def copyOneRun (objs : List BlenderObj) (activeId : Nat) (sel : List Nat) (index : Nat) :
    Bool × List BlenderObj :=
  copyOneGo activeId index sel objs

/-- Position of the first entry of `l` whose `name` is `nm` — the entry
that the host collection's `coll[name]` lookup designates. -/
def firstIdxWithName : List GameProp → String → Option Nat
  | [], _ => none
  | q :: rest, nm =>
      if q.name = nm then some 0 else (firstIdxWithName rest nm).map (fun j => j + 1)

/-- A context whose override filepath is `"/x/y/scene"` and whose format
is GLB, with no objects or actions. -/
def ctxGlbOverride : Ctx :=
  { blendFilepath := "", t3dExportFilepath := "/x/y/scene",
    t3dExportFormat := .GLB, t3dExportCameras := true, t3dExportLights := true,
    t3dPackTextures := false, fps := 24, objects := [], actions := [] }

/-- A context with empty override, document path `"/a/b.blend"` and
format glTF-embedded, with no objects or actions. -/
def ctxEmbeddedBlend : Ctx :=
  { blendFilepath := "/a/b.blend", t3dExportFilepath := "",
    t3dExportFormat := .GLTF_EMBEDDED, t3dExportCameras := true, t3dExportLights := true,
    t3dPackTextures := false, fps := 24, objects := [], actions := [] }

/-- A context with no override and no document save path. -/
def ctxNoDestination : Ctx :=
  { blendFilepath := "", t3dExportFilepath := "",
    t3dExportFormat := .GLTF_EMBEDDED, t3dExportCameras := true, t3dExportLights := true,
    t3dPackTextures := false, fps := 24,
    objects := [{ name := "cube", instance_type := "MESH", instance_collection := [],
                  t3dInstanceCollection := none }],
    actions := [{ name := "run", pose_markers := [{ name := "hit", frame := 48 }],
                  t3dMarkers := none }] }

/-- A context holding one collection-instancing object and one action
with a pose marker, so that the annotation step writes both kinds of
transient field. -/
def ctxAnnotated : Ctx :=
  { blendFilepath := "/a/b.blend", t3dExportFilepath := "",
    t3dExportFormat := .GLTF_EMBEDDED, t3dExportCameras := true, t3dExportLights := true,
    t3dPackTextures := false, fps := 24,
    objects := [{ name := "inst", instance_type := "COLLECTION",
                  instance_collection := [{ name := "child", parent := none },
                                          { name := "sub", parent := some "child" }],
                  t3dInstanceCollection := none }],
    actions := [{ name := "run", pose_markers := [{ name := "hit", frame := 48 }],
                  t3dMarkers := none }] }

/-! ## Helper lemmas -/

/-- Lemma: `copyProp` overwrites every field of the target with the source's
fields: its result is the source value, whatever the target was. -/
theorem copyProp_overwrite (p q : GameProp) : copyProp p q = p := rfl

theorem copyAllList_go (A : List GameProp) :
    ∀ acc : List GameProp,
      A.foldl (fun acc prop => acc ++ [copyProp prop defaultGameProp]) acc = acc ++ A := by
  induction A with
  | nil => intro acc; simp
  | cons p rest ih =>
      intro acc
      rw [List.foldl_cons, ih]
      simp [copyProp_overwrite]

theorem collectionHasName_false_iff (B : List GameProp) (nm : String) :
    collectionHasName B nm = false ↔ ∀ q ∈ B, q.name ≠ nm := by
  simp [collectionHasName]

theorem firstIdxWithName_some (p : GameProp) (B : List GameProp) :
    ∀ j, firstIdxWithName B p.name = some j →
      j < B.length ∧ (∃ q, B[j]? = some q ∧ q.name = p.name) ∧
        collectionAssignByName B p.name (copyProp p) = B.set j p := by
  induction B with
  | nil => intro j hj; simp [firstIdxWithName] at hj
  | cons q rest ih =>
      intro j hj
      by_cases hq : q.name = p.name
      · simp [firstIdxWithName, hq] at hj
        subst hj
        refine ⟨by simp, ⟨q, by simp, hq⟩, ?_⟩
        simp [collectionAssignByName, hq, copyProp_overwrite]
      · simp [firstIdxWithName, hq] at hj
        obtain ⟨j', hj', rfl⟩ := hj
        obtain ⟨hlt, ⟨w, hw, hwn⟩, hassign⟩ := ih j' hj'
        refine ⟨by simpa using hlt, ⟨w, by simpa using hw, hwn⟩, ?_⟩
        simp [collectionAssignByName, hq, hassign]

theorem firstIdxWithName_mem_name (p : GameProp) (B : List GameProp) (j : Nat)
    (hj : firstIdxWithName B p.name = some j) : collectionHasName B p.name = true := by
  obtain ⟨_, ⟨q, hq, hqn⟩, _⟩ := firstIdxWithName_some p B j hj
  have hmem : q ∈ B := by
    have := List.getElem?_eq_some_iff.mp hq
    obtain ⟨hlt, hget⟩ := this
    exact hget ▸ List.getElem_mem hlt
  simp [collectionHasName]
  exact ⟨q, hmem, hqn⟩

theorem listRelocate_self {α : Type} (l : List α) : ∀ k, listRelocate l k k = l := by
  induction l with
  | nil => intro k; rfl
  | cons x xs ih =>
      intro k
      cases k with
      | zero => simp [listRelocate]
      | succ n =>
          unfold listRelocate
          cases h : (x :: xs)[n + 1]? with
          | none => rfl
          | some y =>
              have h' : xs[n]? = some y := by simpa using h
              have := ih n
              unfold listRelocate at this
              rw [h'] at this
              dsimp only at this
              simp [List.eraseIdx_cons_succ, List.insertIdx_succ_cons, this]

theorem listRelocate_up {α : Type} (l : List α) :
    ∀ j, j + 1 < l.length → listRelocate l (j + 1) j = swapAdj l j := by
  induction l with
  | nil => intro j hj; simp at hj
  | cons x xs ih =>
      intro j hj
      cases j with
      | zero =>
          cases xs with
          | nil => simp at hj
          | cons y rest => simp [listRelocate, swapAdj]
      | succ n =>
          have hn : n + 1 < xs.length := by simpa using hj
          have hy : ∃ y, xs[n + 1]? = some y := by
            exact ⟨xs[n + 1], List.getElem?_eq_getElem hn⟩
          obtain ⟨y, hy⟩ := hy
          have := ih n hn
          unfold listRelocate at this ⊢
          rw [hy] at this
          dsimp only at this
          have hcons : (x :: xs)[n + 1 + 1]? = some y := by simpa using hy
          rw [hcons]
          simp [List.eraseIdx_cons_succ, List.insertIdx_succ_cons, this, swapAdj]

theorem listRelocate_down {α : Type} (l : List α) :
    ∀ j, j + 1 < l.length → listRelocate l j (j + 1) = swapAdj l j := by
  induction l with
  | nil => intro j hj; simp at hj
  | cons x xs ih =>
      intro j hj
      cases j with
      | zero =>
          cases xs with
          | nil => simp at hj
          | cons y rest => simp [listRelocate, swapAdj]
      | succ n =>
          have hn : n + 1 < xs.length := by simpa using hj
          have hy : ∃ y, xs[n]? = some y := by
            exact ⟨_, List.getElem?_eq_getElem (by omega)⟩
          obtain ⟨y, hy⟩ := hy
          have := ih n hn
          unfold listRelocate at this ⊢
          rw [hy] at this
          dsimp only at this
          have hcons : (x :: xs)[n + 1]? = some y := by simpa using hy
          rw [hcons]
          simp [List.eraseIdx_cons_succ, List.insertIdx_succ_cons, this, swapAdj]

theorem swapAdj_length {α : Type} (l : List α) : ∀ j, (swapAdj l j).length = l.length := by
  induction l with
  | nil => intro j; rfl
  | cons x xs ih =>
      intro j
      cases j with
      | zero =>
          cases xs with
          | nil => rfl
          | cons y rest => simp [swapAdj]
      | succ n => simpa [swapAdj] using ih n

theorem swapAdj_spec {α : Type} (l : List α) :
    ∀ j, j + 1 < l.length →
      (swapAdj l j)[j]? = l[j + 1]? ∧ (swapAdj l j)[j + 1]? = l[j]? ∧
        ∀ k, k ≠ j → k ≠ j + 1 → (swapAdj l j)[k]? = l[k]? := by
  induction l with
  | nil => intro j hj; simp at hj
  | cons x xs ih =>
      intro j hj
      cases j with
      | zero =>
          cases xs with
          | nil => simp at hj
          | cons y rest =>
              refine ⟨by simp [swapAdj], by simp [swapAdj], ?_⟩
              intro k hk0 hk1
              match k, hk0, hk1 with
              | k + 2, _, _ => simp [swapAdj]
      | succ n =>
          have hn : n + 1 < xs.length := by simpa using hj
          obtain ⟨h1, h2, h3⟩ := ih n hn
          refine ⟨by simpa [swapAdj] using h1, by simpa [swapAdj] using h2, ?_⟩
          intro k hk0 hk1
          match k, hk0, hk1 with
          | 0, _, _ => simp [swapAdj]
          | k + 1, hk0, hk1 =>
              have := h3 k (by omega) (by omega)
              simpa [swapAdj] using this

theorem updateObjProps_preserves (objs : List BlenderObj) (oid : Nat)
    (f : List GameProp → List GameProp) (i : Nat) (o : BlenderObj)
    (h : objs[i]? = some o) (hne : o.id ≠ oid) :
    (updateObjProps objs oid f)[i]? = some o := by
  simp [updateObjProps, List.getElem?_map, h, hne]

theorem copyPropsGo_preserves (activeId : Nat) :
    ∀ (sel : List Nat) (objs : List BlenderObj) (i : Nat) (o : BlenderObj),
      objs[i]? = some o → o.id = activeId →
      (copyPropsGo activeId sel objs)[i]? = some o := by
  intro sel
  induction sel with
  | nil => intro objs i o h _; simpa [copyPropsGo] using h
  | cons oid rest ih =>
      intro objs i o h hid
      by_cases hskip : oid = activeId
      · simpa [copyPropsGo, hskip] using ih objs i o h hid
      · have hpres := updateObjProps_preserves objs oid
          (fun props => copyAllList (getObjProps objs activeId) props) i o h (by omega)
        simpa [copyPropsGo, hskip] using
          ih (updateObjProps objs oid (fun props => copyAllList (getObjProps objs activeId) props))
            i o hpres hid

theorem copyOneGo_preserves (activeId index : Nat) :
    ∀ (sel : List Nat) (objs : List BlenderObj) (i : Nat) (o : BlenderObj),
      objs[i]? = some o → o.id = activeId →
      (copyOneGo activeId index sel objs).2[i]? = some o := by
  intro sel
  induction sel with
  | nil => intro objs i o h _; simpa [copyOneGo] using h
  | cons oid rest ih =>
      intro objs i o h hid
      by_cases hskip : oid = activeId
      · simpa [copyOneGo, hskip] using ih objs i o h hid
      · cases hg : (getObjProps objs activeId)[index]? with
        | none => simpa [copyOneGo, hskip, hg] using h
        | some fromProp =>
            have hpres := updateObjProps_preserves objs oid (copyOneUpsert fromProp) i o h
              (by omega)
            simpa [copyOneGo, hskip, hg] using
              ih (updateObjProps objs oid (copyOneUpsert fromProp)) i o hpres hid

/-! ## Claim theorems -/

/-- C8: after `CopyAll(A, B)` the target equals a deep value copy of the
source: `OBJECT_OT_tetra3dCopyProps.execute` replaces the target list by
a list equal to `A` — same length, same order, every field of every entry
equal — and, the copy being by value of every field (`copyProp`), the
result shares no state with `A`. -/
theorem copyAll_deepcopy (A B : List GameProp) : copyAllList A B = A := by
  simpa using copyAllList_go A []

/-- C2: `CopyOne(A, B, i)` with `i` in range is an upsert by name: every
field of `A[i]` is copied by value (`copyProp` yields the source value
whatever the target was); when no entry of `B` is named `A[i].name` the
result is `B` with a copy of `A[i]` appended, one entry longer; when the
first entry of `B` named `A[i].name` sits at position `j`, the result is
`B.set j A[i]` — same length, entry `j` overwritten in place with all of
`A[i]`'s fields, every other position unchanged. -/
theorem copyOne_upsert_by_name (A B : List GameProp) (i : Nat) (h : i < A.length) :
    (∀ q, copyProp A[i] q = A[i]) ∧
    ((∀ q ∈ B, q.name ≠ A[i].name) →
      copyOneList A B i = some (B ++ [A[i]]) ∧ (B ++ [A[i]]).length = B.length + 1) ∧
    (∀ j, firstIdxWithName B A[i].name = some j →
      j < B.length ∧ (∃ q, B[j]? = some q ∧ q.name = A[i].name) ∧
        copyOneList A B i = some (B.set j A[i]) ∧
        (B.set j A[i]).length = B.length ∧ (B.set j A[i])[j]? = some A[i] ∧
        ∀ k, k ≠ j → (B.set j A[i])[k]? = B[k]?) := by
  have hget : A[i]? = some A[i] := List.getElem?_eq_getElem h
  refine ⟨fun q => copyProp_overwrite _ q, ?_, ?_⟩
  · intro habs
    have hhas : collectionHasName B A[i].name = false :=
      (collectionHasName_false_iff B A[i].name).mpr habs
    exact ⟨by simp [copyOneList, hget, copyOneUpsert, hhas, copyProp_overwrite], by simp⟩
  · intro j hj
    obtain ⟨hlt, hex, hassign⟩ := firstIdxWithName_some A[i] B j hj
    have hhas := firstIdxWithName_mem_name A[i] B j hj
    refine ⟨hlt, hex, ?_, by simp, List.getElem?_set_self hlt, ?_⟩
    · simp [copyOneList, hget, copyOneUpsert, hhas, hassign]
    · intro k hk
      exact List.getElem?_set_ne (fun hjk => hk hjk.symm)

/-- Closed instance of `copyOne_upsert_by_name`: source list with one
entry named `"speed"`, target containing an entry of that name at
position 1 (overwrite in place) and, for a disjoint target, an append. -/
theorem copyOne_upsert_by_name_witness :
    (0 : Nat) < 1 ∧
    (firstIdxWithName
        [{ name := "hp", valueType := "int", valueBool := false, valueInt := 7,
           valueFloat := 0, valueString := "", valueReference := none,
           valueReferenceScene := none },
         { name := "speed", valueType := "bool", valueBool := true, valueInt := 0,
           valueFloat := 0, valueString := "", valueReference := none,
           valueReferenceScene := none }] "speed" = some 1) ∧
    copyOneList
        [{ name := "speed", valueType := "float", valueBool := false, valueInt := 0,
           valueFloat := 3, valueString := "", valueReference := none,
           valueReferenceScene := none }]
        [{ name := "hp", valueType := "int", valueBool := false, valueInt := 7,
           valueFloat := 0, valueString := "", valueReference := none,
           valueReferenceScene := none },
         { name := "speed", valueType := "bool", valueBool := true, valueInt := 0,
           valueFloat := 0, valueString := "", valueReference := none,
           valueReferenceScene := none }] 0 =
      some
        [{ name := "hp", valueType := "int", valueBool := false, valueInt := 7,
           valueFloat := 0, valueString := "", valueReference := none,
           valueReferenceScene := none },
         { name := "speed", valueType := "float", valueBool := false, valueInt := 0,
           valueFloat := 3, valueString := "", valueReference := none,
           valueReferenceScene := none }] := by
  refine ⟨by decide, by decide, ?_⟩
  have := (copyOne_upsert_by_name
    [{ name := "speed", valueType := "float", valueBool := false, valueInt := 0,
       valueFloat := 3, valueString := "", valueReference := none,
       valueReferenceScene := none }]
    [{ name := "hp", valueType := "int", valueBool := false, valueInt := 7,
       valueFloat := 0, valueString := "", valueReference := none,
       valueReferenceScene := none },
     { name := "speed", valueType := "bool", valueBool := true, valueInt := 0,
       valueFloat := 0, valueString := "", valueReference := none,
       valueReferenceScene := none }] 0 (by decide)).2.2 1 (by decide)
  exact this.2.2.1

/-- C3: evaluation of every settings getter on a scene where no setting
was ever written.  Five defaults match the documented ones
(export-on-save `false`, filepath `""`, cameras `true`, lights `true`,
pack-textures `false`), but `getExportFormat` returns `0`, which
`gltfExportTypes` resolves to the identifier `"GLB"` — not the
`"GLTF_EMBEDDED"` default that the `t3dExportFormat__` property
declaration itself documents. -/
theorem fresh_settings_defaults :
    getExportOnSave freshSceneStore = false ∧
    getExportFilepath freshSceneStore = "" ∧
    getExportCameras freshSceneStore = true ∧
    getExportLights freshSceneStore = true ∧
    getPackTextures freshSceneStore = false ∧
    getExportFormat freshSceneStore = 0 ∧
    enumIdentifierOfNumber gltfExportTypes (getExportFormat freshSceneStore) = some "GLB" ∧
    enumIdentifierOfNumber gltfExportTypes 2 = some declaredFormatDefault ∧
    some "GLB" ≠ some declaredFormatDefault := by
  decide

/-- C5: when both the filepath override and the document save path are
empty, `export()` returns `False` before any mutation: the delegate
exporter is invoked zero times and the document state — every object and
action — is returned exactly as it was. -/
theorem export_no_destination (ctx : Ctx)
    (h1 : ctx.t3dExportFilepath = "") (h2 : ctx.blendFilepath = "") (delegateOk : Bool) :
    exportFn ctx delegateOk =
      { outcome := ExportOutcome.returned false, ctx := ctx, calls := [] } := by
  have hbase : resolvedBase ctx = "" := by simp [resolvedBase, h1, h2]
  unfold exportFn
  rw [if_pos hbase]

/-- Closed instance of `export_no_destination` at a context carrying an
object and a marker-bearing action, checking failure, zero exporter
calls and an untouched document. -/
theorem export_no_destination_witness :
    ctxNoDestination.t3dExportFilepath = "" ∧ ctxNoDestination.blendFilepath = "" ∧
    exportFn ctxNoDestination true =
      { outcome := ExportOutcome.returned false, ctx := ctxNoDestination, calls := [] } := by
  exact ⟨rfl, rfl, export_no_destination ctxNoDestination rfl rfl true⟩

/-- C1 (amended): when the resolved destination is non-empty and the
delegate exporter call returns normally, `export()` runs its cleanup
loops after the delegate call and the returned document has no transient
annotation field left on any object or action. -/
theorem export_cleanup_after_normal_delegate (ctx : Ctx) (h : resolvedBase ctx ≠ "") :
    (exportFn ctx true).outcome = ExportOutcome.returned true ∧
    (∀ o ∈ (exportFn ctx true).ctx.objects, o.t3dInstanceCollection = none) ∧
    (∀ a ∈ (exportFn ctx true).ctx.actions, a.t3dMarkers = none) := by
  unfold exportFn
  rw [if_neg h]
  rw [if_pos rfl]
  refine ⟨rfl, ?_, ?_⟩
  · intro o ho
    simp only [List.mem_map] at ho
    obtain ⟨o', ⟨o'', _, rfl⟩, rfl⟩ := ho
    rfl
  · intro a ha
    simp only [List.mem_map] at ha
    obtain ⟨a', ⟨a'', _, rfl⟩, rfl⟩ := ha
    rfl

/-- Closed instance of `export_cleanup_after_normal_delegate` at a
context whose annotation step stamps both an instance-collection field
and a marker field: after the successful export no annotation remains. -/
theorem export_cleanup_after_normal_delegate_witness :
    resolvedBase ctxAnnotated ≠ "" ∧
    (∀ o ∈ (exportFn ctxAnnotated true).ctx.objects, o.t3dInstanceCollection = none) ∧
    (∀ a ∈ (exportFn ctxAnnotated true).ctx.actions, a.t3dMarkers = none) := by
  have h : resolvedBase ctxAnnotated ≠ "" := by decide
  exact ⟨h, (export_cleanup_after_normal_delegate ctxAnnotated h).2.1,
    (export_cleanup_after_normal_delegate ctxAnnotated h).2.2⟩

/-- C1 counterexample: at `ctxAnnotated` with a delegate call that
raises, the export attempt passes the annotation step, yet the returned
document still carries transient annotation fields — the claim that zero
annotation fields remain after any export attempt past the annotation
step is false, because `export()` has no `try`/`finally` around the
delegate call. -/
theorem export_cleanup_skipped_on_raise_cex :
    (exportFn ctxAnnotated false).outcome = ExportOutcome.raised ∧
    ((exportFn ctxAnnotated false).ctx.objects.all
        (fun o => o.t3dInstanceCollection.isNone)
      && (exportFn ctxAnnotated false).ctx.actions.all
        (fun a => a.t3dMarkers.isNone)) = false := by
  exact ⟨by decide, by decide⟩

/-- C4: output-path resolution.  Whenever the resolved base path (the
override if non-empty, otherwise the document save path) is non-empty,
the single delegate call receives `splitext(base).1` with the
format-derived extension appended (`.glb` for GLB, `.gltf` otherwise, by
`gltfEnding`); in particular override `"/x/y/scene"` with format GLB
yields `/x/y/scene.glb`, and empty override with document path
`"/a/b.blend"` and format glTF-embedded yields `/a/b.gltf`. -/
theorem export_path_resolution :
    (∀ (ctx : Ctx) (delegateOk : Bool), resolvedBase ctx ≠ "" →
      (exportFn ctx delegateOk).calls.map (fun c => c.filepath) =
        [(splitext (resolvedBase ctx)).1 ++ gltfEnding ctx.t3dExportFormat]) ∧
    (exportFn ctxGlbOverride true).calls.map (fun c => c.filepath) = ["/x/y/scene.glb"] ∧
    (exportFn ctxEmbeddedBlend true).calls.map (fun c => c.filepath) = ["/a/b.gltf"] := by
  refine ⟨?_, by decide, by decide⟩
  intro ctx delegateOk h
  cases delegateOk <;>
    · unfold exportFn
      rw [if_neg h]
      simp

/-- Closed instance of `export_path_resolution`'s general clause at the
GLB-override context. -/
theorem export_path_resolution_witness :
    resolvedBase ctxGlbOverride ≠ "" ∧
    (exportFn ctxGlbOverride false).calls.map (fun c => c.filepath) =
      [(splitext (resolvedBase ctxGlbOverride)).1 ++ gltfEnding ctxGlbOverride.t3dExportFormat] := by
  have h : resolvedBase ctxGlbOverride ≠ "" := by decide
  exact ⟨h, export_path_resolution.1 ctxGlbOverride false h⟩

/-- C6: every successful run of `export()` makes exactly one delegate
exporter call, with `export_extras`, `export_yup` and `export_apply`
forced to `True`, the format, camera and light settings passed through
verbatim, and `export_keep_originals` the logical inverse of the
pack-textures setting. -/
theorem export_delegate_once_forced (ctx : Ctx) (delegateOk : Bool)
    (h : (exportFn ctx delegateOk).outcome = ExportOutcome.returned true) :
    (exportFn ctx delegateOk).calls =
      [{ filepath := (splitext (resolvedBase ctx)).1 ++ gltfEnding ctx.t3dExportFormat,
         export_format := ctx.t3dExportFormat,
         export_cameras := ctx.t3dExportCameras,
         export_lights := ctx.t3dExportLights,
         export_keep_originals := !ctx.t3dPackTextures,
         export_extras := true,
         export_yup := true,
         export_apply := true }] := by
  by_cases hb : resolvedBase ctx = ""
  · unfold exportFn at h
    rw [if_pos hb] at h
    simp at h
  · cases delegateOk
    · unfold exportFn at h
      rw [if_neg hb] at h
      simp at h
    · unfold exportFn
      rw [if_neg hb]
      rfl

/-- Closed instance of `export_delegate_once_forced` at the GLB-override
context (pack-textures off, so original textures are kept). -/
theorem export_delegate_once_forced_witness :
    (exportFn ctxGlbOverride true).outcome = ExportOutcome.returned true ∧
    (exportFn ctxGlbOverride true).calls =
      [{ filepath := "/x/y/scene.glb",
         export_format := GltfFormat.GLB,
         export_cameras := true,
         export_lights := true,
         export_keep_originals := true,
         export_extras := true,
         export_yup := true,
         export_apply := true }] := by
  have h : (exportFn ctxGlbOverride true).outcome = ExportOutcome.returned true := by decide
  refine ⟨h, ?_⟩
  have := export_delegate_once_forced ctxGlbOverride true h
  simpa using this

/-- C9: the annotation step stamps every action having at least one pose
marker with the list of `{name, time}` pairs, `time = marker.frame /
scene.render.fps`, and leaves an action without pose markers entirely
unannotated (unchanged). -/
theorem annotateAction_markers (fps : ℚ) (a : BAction) :
    (a.pose_markers ≠ [] →
      annotateAction fps a =
        { a with t3dMarkers := some (a.pose_markers.map
            (fun m => { name := m.name, time := (m.frame : ℚ) / fps })) }) ∧
    (a.pose_markers = [] → annotateAction fps a = a) := by
  constructor
  · intro h
    unfold annotateAction
    rw [if_pos]
    simpa using List.length_pos.mpr h
  · intro h
    simp [annotateAction, h]

/-- Closed instance of `annotateAction_markers`: a marker at frame 48
with scene frame rate 24 is stamped with `time = 2`. -/
theorem annotateAction_markers_witness :
    ([(⟨"hit", 48⟩ : PoseMarker)] ≠ ([] : List PoseMarker)) ∧
    annotateAction 24 ⟨"run", [⟨"hit", 48⟩], none⟩ =
      (⟨"run", [⟨"hit", 48⟩], some [⟨"hit", 2⟩]⟩ : BAction) := by
  refine ⟨by decide, ?_⟩
  have := (annotateAction_markers 24 ⟨"run", [⟨"hit", 48⟩], none⟩).1 (by decide)
  rw [this]
  norm_num

/-- C7: reorder boundary and swap behaviour.  `MoveUp` at index 0 and
`MoveDown` at the last index are silent no-ops; at any in-bounds
non-boundary index, `MoveUp` swaps entries `i-1` and `i` and `MoveDown`
swaps entries `i` and `i+1`, leaving every other entry in place. -/
theorem reorder_boundary_and_swap {α : Type} (L : List α) :
    reorderExec L 0 true = L ∧
    reorderExec L (L.length - 1) false = L ∧
    (∀ i, 0 < i → i < L.length →
      (reorderExec L i true).length = L.length ∧
      (reorderExec L i true)[i - 1]? = L[i]? ∧
      (reorderExec L i true)[i]? = L[i - 1]? ∧
      ∀ k, k ≠ i - 1 → k ≠ i → (reorderExec L i true)[k]? = L[k]?) ∧
    (∀ i, i + 1 < L.length →
      (reorderExec L i false).length = L.length ∧
      (reorderExec L i false)[i]? = L[i + 1]? ∧
      (reorderExec L i false)[i + 1]? = L[i]? ∧
      ∀ k, k ≠ i → k ≠ i + 1 → (reorderExec L i false)[k]? = L[k]?) := by
  refine ⟨?_, ?_, ?_, ?_⟩
  · have hf : (max 0 (min ((0 : Nat) : Int) ((L.length : Int) - 1))).toNat = 0 := by omega
    have ht : (max 0 (min (((0 : Nat) : Int) - 1) ((L.length : Int) - 1))).toNat = 0 := by
      omega
    simp only [reorderExec, if_pos rfl, collectionMove]
    rw [hf, ht]
    exact listRelocate_self L 0
  · have hf : (max 0 (min ((L.length - 1 : Nat) : Int) ((L.length : Int) - 1))).toNat =
        L.length - 1 := by omega
    have ht : (max 0 (min (((L.length - 1 : Nat) : Int) + 1) ((L.length : Int) - 1))).toNat =
        L.length - 1 := by omega
    simp only [reorderExec, Bool.false_eq_true, if_neg, collectionMove]
    rw [hf, ht]
    exact listRelocate_self L (L.length - 1)
  · intro i h0 hlen
    have hf : (max 0 (min ((i : Nat) : Int) ((L.length : Int) - 1))).toNat = i := by omega
    have ht : (max 0 (min (((i : Nat) : Int) - 1) ((L.length : Int) - 1))).toNat = i - 1 := by
      omega
    have hexec : reorderExec L i true = swapAdj L (i - 1) := by
      simp only [reorderExec, if_pos rfl, collectionMove]
      rw [hf, ht]
      have hup := listRelocate_up L (i - 1) (by omega)
      rw [Nat.sub_add_cancel h0] at hup
      exact hup
    have hspec := swapAdj_spec L (i - 1) (by omega)
    have hone : i - 1 + 1 = i := Nat.sub_add_cancel h0
    rw [hone] at hspec
    refine ⟨by rw [hexec]; exact swapAdj_length L (i - 1), ?_, ?_, ?_⟩
    · rw [hexec]; exact hspec.1
    · rw [hexec]; exact hspec.2.1
    · intro k hk1 hk2
      rw [hexec]
      exact hspec.2.2 k hk1 hk2
  · intro i hlen
    have hf : (max 0 (min ((i : Nat) : Int) ((L.length : Int) - 1))).toNat = i := by omega
    have ht : (max 0 (min (((i : Nat) : Int) + 1) ((L.length : Int) - 1))).toNat = i + 1 := by
      omega
    have hexec : reorderExec L i false = swapAdj L i := by
      simp only [reorderExec, Bool.false_eq_true, if_neg, collectionMove]
      rw [hf, ht]
      exact listRelocate_down L i hlen
    have hspec := swapAdj_spec L i hlen
    refine ⟨by rw [hexec]; exact swapAdj_length L i, ?_, ?_, ?_⟩
    · rw [hexec]; exact hspec.1
    · rw [hexec]; exact hspec.2.1
    · intro k hk1 hk2
      rw [hexec]
      exact hspec.2.2 k hk1 hk2

/-- Closed instance of `reorder_boundary_and_swap` on a four-element
list: `MoveUp` at index 2 swaps entries 1 and 2. -/
theorem reorder_boundary_and_swap_witness :
    (0 : Nat) < 2 ∧ 2 < ([10, 20, 30, 40] : List Nat).length ∧
    (reorderExec ([10, 20, 30, 40] : List Nat) 2 true)[1]? = some 30 ∧
    (reorderExec ([10, 20, 30, 40] : List Nat) 2 true)[2]? = some 20 ∧
    (reorderExec ([10, 20, 30, 40] : List Nat) 2 true)[0]? = some 10 := by
  have h := (reorder_boundary_and_swap ([10, 20, 30, 40] : List Nat)).2.2.1 2
    (by decide) (by decide)
  refine ⟨by decide, by decide, ?_, ?_, ?_⟩
  · rw [h.2.1]; decide
  · rw [h.2.2.1]; decide
  · rw [h.2.2.2 0 (by decide) (by decide)]; decide

/-- C10: both copy operators skip the active source object when walking
the selection, so every occurrence of the source object in the document
is returned untouched — its property list (indeed the whole object) is
unchanged by `CopyAll` and by `CopyOne`, even when the source is among
the selected targets and even when `CopyOne` aborts on a bad index. -/
theorem copy_ops_skip_active_source (objs : List BlenderObj) (activeId : Nat)
    (sel : List Nat) (index : Nat) (i : Nat) (o : BlenderObj)
    (h : objs[i]? = some o) (hid : o.id = activeId) :
    (copyPropsRun objs activeId sel)[i]? = some o ∧
    (copyOneRun objs activeId sel index).2[i]? = some o :=
  ⟨copyPropsGo_preserves activeId sel objs i o h hid,
    copyOneGo_preserves activeId index sel objs i o h hid⟩

/-- Closed instance of `copy_ops_skip_active_source`: the active object 1
is in the selection together with object 2, and keeps its one-entry
property list under both operators. -/
theorem copy_ops_skip_active_source_witness :
    ([(⟨1, [defaultGameProp]⟩ : BlenderObj), ⟨2, []⟩] : List BlenderObj)[0]? =
        some ⟨1, [defaultGameProp]⟩ ∧
    (⟨1, [defaultGameProp]⟩ : BlenderObj).id = 1 ∧
    (copyPropsRun [⟨1, [defaultGameProp]⟩, ⟨2, []⟩] 1 [1, 2])[0]? =
        some ⟨1, [defaultGameProp]⟩ ∧
    (copyOneRun [⟨1, [defaultGameProp]⟩, ⟨2, []⟩] 1 [1, 2] 0).2[0]? =
        some ⟨1, [defaultGameProp]⟩ := by
  have h := copy_ops_skip_active_source [⟨1, [defaultGameProp]⟩, ⟨2, []⟩] 1 [1, 2] 0 0
    ⟨1, [defaultGameProp]⟩ (by decide) (by decide)
  exact ⟨by decide, by decide, h.1, h.2⟩
